import Mathlib

/-!
Verification of the lz_fnv crate (src/lib.rs): Fowler-Noll-Vo hashing in
the FNV-0, FNV-1 and FNV-1a variants, at widths 32, 64 and 128 bits.

The Rust code instantiates one generic recurrence per width through the
fnv_impl macro; each width supplies its bit width, its prime, its offset
basis and a zero-extending byte conversion.  Machine integers of width W
are modelled as natural numbers reduced modulo 2 ^ W wherever overflow can
occur (wrapping_mul); XOR of two values below 2 ^ W stays below 2 ^ W, so
the in-type XOR of the source is Nat XOR.
-/

/-- The per-width data of one fnv_impl macro instantiation: the bit width
of the hash type, the FNV prime, and the offset basis. -/
structure FnvConfig where
  width : Nat
  prime : Nat
  offset : Nat
deriving DecidableEq

/-- fnv_impl!(u32, 0x811c9dc5, 0x1000193, u32_from_byte) -/
def u32Config : FnvConfig :=
  { width := 32, prime := 0x1000193, offset := 0x811c9dc5 }

/-- fnv_impl!(u64, 0xcbf29ce484222325, 0x100000001B3, u64_from_byte) -/
def u64Config : FnvConfig :=
  { width := 64, prime := 0x100000001B3, offset := 0xcbf29ce484222325 }

/-- fnv_impl!(u128, 0x6C62272E07BB014262B821756295C58D,
0x0000000001000000000000000000013B, u128_from_byte) -/
def u128Config : FnvConfig :=
  { width := 128
    prime := 0x0000000001000000000000000000013B
    offset := 0x6C62272E07BB014262B821756295C58D }

/-- u32_from_byte / u64_from_byte / u128_from_byte: zero-extension of a
byte into the wider type is value-preserving, hence the identity on the
Nat value of the byte. -/
def fromByte (byte : Nat) : Nat := byte

/-- pub struct Fnv0<T> \x7b hash: T \x7d -/
structure Fnv0 where
  hash : Nat
deriving DecidableEq

/-- pub struct Fnv1<T> \x7b hash: T \x7d -/
structure Fnv1 where
  hash : Nat
deriving DecidableEq

/-- pub struct Fnv1a<T> \x7b hash: T \x7d -/
structure Fnv1a where
  hash : Nat
deriving DecidableEq

/-- Fnv0::new, via derive(Default): the hash starts at the integer
default, zero. -/
def Fnv0.new : Fnv0 := { hash := 0 }

/-- Fnv0::with_key -/
def Fnv0.withKey (key : Nat) : Fnv0 := { hash := key }

/-- Fnv1::with_key -/
def Fnv1.withKey (key : Nat) : Fnv1 := { hash := key }

/-- Fnv1a::with_key -/
def Fnv1a.withKey (key : Nat) : Fnv1a := { hash := key }

/-- Fnv1::new, via the Default impl of fnv1_impl: the hash starts at the
width's offset basis. -/
def Fnv1.new (c : FnvConfig) : Fnv1 := { hash := c.offset }

/-- Fnv1a::new, via the Default impl of fnv1a_impl: the hash starts at the
width's offset basis. -/
def Fnv1a.new (c : FnvConfig) : Fnv1a := { hash := c.offset }

/-- FnvHasher::finish for Fnv0: returns self.hash. -/
def Fnv0.finish (s : Fnv0) : Nat := s.hash

/-- FnvHasher::finish for Fnv1: returns self.hash. -/
def Fnv1.finish (s : Fnv1) : Nat := s.hash

/-- FnvHasher::finish for Fnv1a: returns self.hash. -/
def Fnv1a.finish (s : Fnv1a) : Nat := s.hash

/-- FnvHasher::write of fnv0_impl: for each byte in order,
hash = hash.wrapping_mul(prime); hash ^= from_byte(byte). -/
def Fnv0.write (c : FnvConfig) (s : Fnv0) (bytes : List Nat) : Fnv0 :=
  { hash := bytes.foldl
      (fun hash byte => (hash * c.prime % 2 ^ c.width) ^^^ fromByte byte)
      s.hash }

/-- FnvHasher::write of fnv1_impl: for each byte in order,
hash = hash.wrapping_mul(prime); hash ^= from_byte(byte). -/
def Fnv1.write (c : FnvConfig) (s : Fnv1) (bytes : List Nat) : Fnv1 :=
  { hash := bytes.foldl
      (fun hash byte => (hash * c.prime % 2 ^ c.width) ^^^ fromByte byte)
      s.hash }

/-- FnvHasher::write of fnv1a_impl: for each byte in order,
hash ^= from_byte(byte); hash = hash.wrapping_mul(prime). -/
def Fnv1a.write (c : FnvConfig) (s : Fnv1a) (bytes : List Nat) : Fnv1a :=
  { hash := bytes.foldl
      (fun hash byte => (hash ^^^ fromByte byte) * c.prime % 2 ^ c.width)
      s.hash }

/-- The spec's wording of the FNV-0 / FNV-1 per-byte recurrence: for each
byte b in input order, hash = (hash * PRIME) mod 2 ^ W, then
hash = hash XOR zero_extend(b) — multiply strictly before XOR. -/
def fnvMulXorFold (W prime hash : Nat) : List Nat → Nat
  | [] => hash
  | b :: bs => fnvMulXorFold W prime ((hash * prime % 2 ^ W) ^^^ b) bs

/-- The spec's wording of the FNV-1a per-byte recurrence: for each byte b
in input order, hash = hash XOR zero_extend(b), then
hash = (hash * PRIME) mod 2 ^ W — XOR strictly before multiply. -/
def fnvXorMulFold (W prime hash : Nat) : List Nat → Nat
  | [] => hash
  | b :: bs => fnvXorMulFold W prime ((hash ^^^ b) * prime % 2 ^ W) bs

/-- The byte sequence of the Rust test input
b"chongo <Landon Curt Noll> /\\../\\" (32 ASCII bytes). -/
def chongoBytes : List Nat :=
  [99, 104, 111, 110, 103, 111, 32, 60, 76, 97, 110, 100, 111, 110, 32, 67,
   117, 114, 116, 32, 78, 111, 108, 108, 62, 32, 47, 92, 46, 46, 47, 92]

/-- The ASCII bytes of "foobar". -/
def foobarBytes : List Nat := [102, 111, 111, 98, 97, 114]

/-- Helper: Fnv0.write computes the spec's multiply-then-XOR fold. -/
theorem fnv0_write_eq_mulXorFold (c : FnvConfig) (h : Nat) (bytes : List Nat) :
    (Fnv0.write c (Fnv0.withKey h) bytes).hash = fnvMulXorFold c.width c.prime h bytes := by
  induction bytes generalizing h with
  | nil => rfl
  | cons b bs ih =>
      simpa [Fnv0.write, Fnv0.withKey, fnvMulXorFold, fromByte]
        using ih ((h * c.prime % 2 ^ c.width) ^^^ b)

/-- Helper: Fnv1.write computes the spec's multiply-then-XOR fold. -/
theorem fnv1_write_eq_mulXorFold (c : FnvConfig) (h : Nat) (bytes : List Nat) :
    (Fnv1.write c (Fnv1.withKey h) bytes).hash = fnvMulXorFold c.width c.prime h bytes := by
  induction bytes generalizing h with
  | nil => rfl
  | cons b bs ih =>
      simpa [Fnv1.write, Fnv1.withKey, fnvMulXorFold, fromByte]
        using ih ((h * c.prime % 2 ^ c.width) ^^^ b)

/-- Helper: Fnv1a.write computes the spec's XOR-then-multiply fold. -/
theorem fnv1a_write_eq_xorMulFold (c : FnvConfig) (h : Nat) (bytes : List Nat) :
    (Fnv1a.write c (Fnv1a.withKey h) bytes).hash = fnvXorMulFold c.width c.prime h bytes := by
  induction bytes generalizing h with
  | nil => rfl
  | cons b bs ih =>
      simpa [Fnv1a.write, Fnv1a.withKey, fnvXorMulFold, fromByte]
        using ih ((h ^^^ b) * c.prime % 2 ^ c.width)

/-- Claim C1: for every width W in \x7b32, 64, 128\x7d, the FNV-1a write
operation folds each input byte b, in input order, by first XORing the
zero-extended byte into the accumulator and then multiplying by the
width's prime modulo 2 ^ W (XOR strictly before multiply). -/
theorem C1_fnv1a_xor_then_multiply :
    (∀ (h : Nat) (bytes : List Nat),
        (Fnv1a.write u32Config (Fnv1a.withKey h) bytes).hash
          = fnvXorMulFold u32Config.width u32Config.prime h bytes)
    ∧ (∀ (h : Nat) (bytes : List Nat),
        (Fnv1a.write u64Config (Fnv1a.withKey h) bytes).hash
          = fnvXorMulFold u64Config.width u64Config.prime h bytes)
    ∧ (∀ (h : Nat) (bytes : List Nat),
        (Fnv1a.write u128Config (Fnv1a.withKey h) bytes).hash
          = fnvXorMulFold u128Config.width u128Config.prime h bytes) :=
  ⟨fun h bytes => fnv1a_write_eq_xorMulFold u32Config h bytes,
   fun h bytes => fnv1a_write_eq_xorMulFold u64Config h bytes,
   fun h bytes => fnv1a_write_eq_xorMulFold u128Config h bytes⟩

/-- Claim C2: for every width W in \x7b32, 64, 128\x7d, both FNV-0 and
FNV-1 write fold each byte in input order by multiplying by the prime
modulo 2 ^ W first and then XORing in the zero-extended byte; the FNV-1
recurrence is identical to the FNV-0 one, so from equal accumulator states
and equal input they produce equal results. -/
theorem C2_fnv0_fnv1_multiply_then_xor :
    (∀ (h : Nat) (bytes : List Nat),
        (Fnv0.write u32Config (Fnv0.withKey h) bytes).hash
          = fnvMulXorFold u32Config.width u32Config.prime h bytes)
    ∧ (∀ (h : Nat) (bytes : List Nat),
        (Fnv0.write u64Config (Fnv0.withKey h) bytes).hash
          = fnvMulXorFold u64Config.width u64Config.prime h bytes)
    ∧ (∀ (h : Nat) (bytes : List Nat),
        (Fnv0.write u128Config (Fnv0.withKey h) bytes).hash
          = fnvMulXorFold u128Config.width u128Config.prime h bytes)
    ∧ (∀ (h : Nat) (bytes : List Nat),
        (Fnv1.write u32Config (Fnv1.withKey h) bytes).hash
          = fnvMulXorFold u32Config.width u32Config.prime h bytes)
    ∧ (∀ (h : Nat) (bytes : List Nat),
        (Fnv1.write u64Config (Fnv1.withKey h) bytes).hash
          = fnvMulXorFold u64Config.width u64Config.prime h bytes)
    ∧ (∀ (h : Nat) (bytes : List Nat),
        (Fnv1.write u128Config (Fnv1.withKey h) bytes).hash
          = fnvMulXorFold u128Config.width u128Config.prime h bytes)
    ∧ (∀ (c : FnvConfig) (h : Nat) (bytes : List Nat),
        (Fnv1.write c (Fnv1.withKey h) bytes).hash
          = (Fnv0.write c (Fnv0.withKey h) bytes).hash) :=
  ⟨fun h bytes => fnv0_write_eq_mulXorFold u32Config h bytes,
   fun h bytes => fnv0_write_eq_mulXorFold u64Config h bytes,
   fun h bytes => fnv0_write_eq_mulXorFold u128Config h bytes,
   fun h bytes => fnv1_write_eq_mulXorFold u32Config h bytes,
   fun h bytes => fnv1_write_eq_mulXorFold u64Config h bytes,
   fun h bytes => fnv1_write_eq_mulXorFold u128Config h bytes,
   fun c h bytes =>
     (fnv1_write_eq_mulXorFold c h bytes).trans
       (fnv0_write_eq_mulXorFold c h bytes).symm⟩

/-- Claim C3, counterexample: the spec's §4.5 table prints the 128-bit
prime as 0000000001000000 0000000000000013b, which (digits concatenated)
is the 33-digit numeral 0x00000000010000000000000000000013b = 2 ^ 92 + 0x13b,
while the code's fnv_impl instantiation multiplies by
0x0000000001000000000000000000013B = 2 ^ 88 + 0x13b; a one-byte write at
width 128 therefore differs from what the printed prime would give. -/
theorem C3_counterexample :
    u128Config.prime ≠ 0x00000000010000000000000000000013b
    ∧ (Fnv1a.write u128Config (Fnv1a.withKey 1) [0]).hash
        ≠ (1 ^^^ 0) * 0x00000000010000000000000000000013b % 2 ^ 128 := by
  constructor
  · decide
  · decide

/-- Claim C3, amended (the 128-bit prime in the table has a spurious extra
zero: the code's prime is 0x0000000001000000000000000000013b = 2 ^ 88 + 0x13b):
for each width, Fnv1::new() and Fnv1a::new() start at the table's offset
basis (32-bit 811c9dc5, 64-bit cbf29ce484222325,
128-bit 6c62272e07bb014262b821756295c58d), and every multiply performed by
write uses the width's prime (32-bit 01000193, 64-bit 100000001b3,
128-bit 0000000001000000000000000000013b). -/
theorem C3_constants_amended :
    (Fnv1.new u32Config).hash = 0x811c9dc5
    ∧ (Fnv1a.new u32Config).hash = 0x811c9dc5
    ∧ (Fnv1.new u64Config).hash = 0xcbf29ce484222325
    ∧ (Fnv1a.new u64Config).hash = 0xcbf29ce484222325
    ∧ (Fnv1.new u128Config).hash = 0x6c62272e07bb014262b821756295c58d
    ∧ (Fnv1a.new u128Config).hash = 0x6c62272e07bb014262b821756295c58d
    ∧ u32Config.prime = 0x01000193
    ∧ u64Config.prime = 0x100000001b3
    ∧ u128Config.prime = 0x0000000001000000000000000000013b
    ∧ (∀ (h b : Nat), (Fnv0.write u32Config (Fnv0.withKey h) [b]).hash
        = (h * 0x01000193 % 2 ^ 32) ^^^ b)
    ∧ (∀ (h b : Nat), (Fnv1.write u32Config (Fnv1.withKey h) [b]).hash
        = (h * 0x01000193 % 2 ^ 32) ^^^ b)
    ∧ (∀ (h b : Nat), (Fnv1a.write u32Config (Fnv1a.withKey h) [b]).hash
        = (h ^^^ b) * 0x01000193 % 2 ^ 32)
    ∧ (∀ (h b : Nat), (Fnv0.write u64Config (Fnv0.withKey h) [b]).hash
        = (h * 0x100000001b3 % 2 ^ 64) ^^^ b)
    ∧ (∀ (h b : Nat), (Fnv1.write u64Config (Fnv1.withKey h) [b]).hash
        = (h * 0x100000001b3 % 2 ^ 64) ^^^ b)
    ∧ (∀ (h b : Nat), (Fnv1a.write u64Config (Fnv1a.withKey h) [b]).hash
        = (h ^^^ b) * 0x100000001b3 % 2 ^ 64)
    ∧ (∀ (h b : Nat), (Fnv0.write u128Config (Fnv0.withKey h) [b]).hash
        = (h * 0x0000000001000000000000000000013b % 2 ^ 128) ^^^ b)
    ∧ (∀ (h b : Nat), (Fnv1.write u128Config (Fnv1.withKey h) [b]).hash
        = (h * 0x0000000001000000000000000000013b % 2 ^ 128) ^^^ b)
    ∧ (∀ (h b : Nat), (Fnv1a.write u128Config (Fnv1a.withKey h) [b]).hash
        = (h ^^^ b) * 0x0000000001000000000000000000013b % 2 ^ 128) :=
  ⟨rfl, rfl, rfl, rfl, rfl, rfl, rfl, rfl, rfl,
   fun _ _ => rfl, fun _ _ => rfl, fun _ _ => rfl,
   fun _ _ => rfl, fun _ _ => rfl, fun _ _ => rfl,
   fun _ _ => rfl, fun _ _ => rfl, fun _ _ => rfl⟩

/-- Claim C4: for every variant, every width configuration, every
accumulator state and all byte sequences a and b, write(a) then write(b)
leaves the accumulator — and hence finish() — in the same state as the
single call write(a ++ b). -/
theorem C4_write_concat :
    (∀ (c : FnvConfig) (s : Fnv0) (a b : List Nat),
        Fnv0.write c (Fnv0.write c s a) b = Fnv0.write c s (a ++ b)
        ∧ (Fnv0.write c (Fnv0.write c s a) b).finish = (Fnv0.write c s (a ++ b)).finish)
    ∧ (∀ (c : FnvConfig) (s : Fnv1) (a b : List Nat),
        Fnv1.write c (Fnv1.write c s a) b = Fnv1.write c s (a ++ b)
        ∧ (Fnv1.write c (Fnv1.write c s a) b).finish = (Fnv1.write c s (a ++ b)).finish)
    ∧ (∀ (c : FnvConfig) (s : Fnv1a) (a b : List Nat),
        Fnv1a.write c (Fnv1a.write c s a) b = Fnv1a.write c s (a ++ b)
        ∧ (Fnv1a.write c (Fnv1a.write c s a) b).finish = (Fnv1a.write c s (a ++ b)).finish) := by
  refine ⟨fun c s a b => ?_, fun c s a b => ?_, fun c s a b => ?_⟩ <;>
    refine ⟨?_, ?_⟩ <;>
    simp [Fnv0.write, Fnv1.write, Fnv1a.write, Fnv0.finish, Fnv1.finish, Fnv1a.finish,
      List.foldl_append]

/-- Claim C5: FNV-0 keyed at 0, fed the 32 ASCII bytes of
"chongo <Landon Curt Noll> /\\../\\", finishes at the width's offset
basis: 811c9dc5 at 32 bits, cbf29ce484222325 at 64 bits, and
6c62272e07bb014262b821756295c58d at 128 bits. -/
theorem C5_fnv0_offset_basis_derivation :
    (Fnv0.write u32Config (Fnv0.withKey 0) chongoBytes).finish = 0x811c9dc5
    ∧ (Fnv0.write u64Config (Fnv0.withKey 0) chongoBytes).finish = 0xcbf29ce484222325
    ∧ (Fnv0.write u128Config (Fnv0.withKey 0) chongoBytes).finish
        = 0x6C62272E07BB014262B821756295C58D := by
  refine ⟨by decide, by decide, by decide⟩

/-- Claim C6: a fresh 128-bit FNV-1a accumulator, after write of the ASCII
bytes of "foobar", finishes at 0x343e1662793c64bf6f0d3597ba446f18. -/
theorem C6_fnv1a_128_foobar :
    (Fnv1a.write u128Config (Fnv1a.new u128Config) foobarBytes).finish
      = 0x343e1662793c64bf6f0d3597ba446f18 := by
  decide

/-- Claim C7: the ASCII bytes of "foobar" are a non-empty input on which
FNV-1 and FNV-1a, each starting from the width's default offset basis,
finish at different values — at every width. -/
theorem C7_fnv1_ne_fnv1a_on_foobar :
    foobarBytes ≠ []
    ∧ (Fnv1.write u32Config (Fnv1.new u32Config) foobarBytes).finish
        ≠ (Fnv1a.write u32Config (Fnv1a.new u32Config) foobarBytes).finish
    ∧ (Fnv1.write u64Config (Fnv1.new u64Config) foobarBytes).finish
        ≠ (Fnv1a.write u64Config (Fnv1a.new u64Config) foobarBytes).finish
    ∧ (Fnv1.write u128Config (Fnv1.new u128Config) foobarBytes).finish
        ≠ (Fnv1a.write u128Config (Fnv1a.new u128Config) foobarBytes).finish := by
  refine ⟨by decide, by decide, by decide, by decide⟩

/-- The embedding of a call to FnvHasher::finish through its shared-borrow
receiver (fn finish(&self) -> Self::Hash): the call produces the returned
hash together with the receiver state it leaves behind, which a &self
method cannot mutate. -/
def Fnv0.finishCall (s : Fnv0) : Nat × Fnv0 := (s.hash, s)

/-- finish(&self) for Fnv1, as a (returned value, receiver left behind)
pair. -/
def Fnv1.finishCall (s : Fnv1) : Nat × Fnv1 := (s.hash, s)

/-- finish(&self) for Fnv1a, as a (returned value, receiver left behind)
pair. -/
def Fnv1a.finishCall (s : Fnv1a) : Nat × Fnv1a := (s.hash, s)

/-- Claim C8: for every variant and width, finish returns the current
accumulator value, leaves the accumulator unchanged, two consecutive
finish calls return the same value, and a finish call between writes does
not affect the subsequent write. -/
theorem C8_finish_pure :
    (∀ s : Fnv0, s.finishCall.1 = s.finish ∧ s.finishCall.2 = s
      ∧ s.finishCall.2.finishCall.1 = s.finishCall.1
      ∧ ∀ (c : FnvConfig) (bytes : List Nat),
          Fnv0.write c s.finishCall.2 bytes = Fnv0.write c s bytes)
    ∧ (∀ s : Fnv1, s.finishCall.1 = s.finish ∧ s.finishCall.2 = s
      ∧ s.finishCall.2.finishCall.1 = s.finishCall.1
      ∧ ∀ (c : FnvConfig) (bytes : List Nat),
          Fnv1.write c s.finishCall.2 bytes = Fnv1.write c s bytes)
    ∧ (∀ s : Fnv1a, s.finishCall.1 = s.finish ∧ s.finishCall.2 = s
      ∧ s.finishCall.2.finishCall.1 = s.finishCall.1
      ∧ ∀ (c : FnvConfig) (bytes : List Nat),
          Fnv1a.write c s.finishCall.2 bytes = Fnv1a.write c s bytes) :=
  ⟨fun _ => ⟨rfl, rfl, rfl, fun _ _ => rfl⟩,
   fun _ => ⟨rfl, rfl, rfl, fun _ _ => rfl⟩,
   fun _ => ⟨rfl, rfl, rfl, fun _ _ => rfl⟩⟩

/-- Helper: the multiply-then-XOR fold keeps the accumulator below
2 ^ width when the width is at least 8 and every byte is below 256. -/
theorem foldl_mulXor_lt (c : FnvConfig) (hW : 8 ≤ c.width) :
    ∀ (bytes : List Nat) (h : Nat), h < 2 ^ c.width → (∀ b ∈ bytes, b < 256) →
      bytes.foldl (fun hash byte => (hash * c.prime % 2 ^ c.width) ^^^ fromByte byte) h
        < 2 ^ c.width := by
  intro bytes
  induction bytes with
  | nil => intro h hh _; simpa using hh
  | cons b bs ih =>
      intro h hh hbytes
      simp only [List.foldl_cons]
      refine ih _ ?_ fun x hx => hbytes x (List.mem_cons_of_mem b hx)
      refine Nat.xor_lt_two_pow (Nat.mod_lt _ (Nat.pos_pow_of_pos _ (by norm_num))) ?_
      calc fromByte b < 256 := hbytes b (List.mem_cons_self b bs)
        _ = 2 ^ 8 := by norm_num
        _ ≤ 2 ^ c.width := Nat.pow_le_pow_right (by norm_num) hW

/-- Helper: the XOR-then-multiply fold keeps the accumulator below
2 ^ width when the width is at least 8 and every byte is below 256. -/
theorem foldl_xorMul_lt (c : FnvConfig) :
    ∀ (bytes : List Nat) (h : Nat), h < 2 ^ c.width → (∀ b ∈ bytes, b < 256) →
      bytes.foldl (fun hash byte => (hash ^^^ fromByte byte) * c.prime % 2 ^ c.width) h
        < 2 ^ c.width := by
  intro bytes
  induction bytes with
  | nil => intro h hh _; simpa using hh
  | cons b bs ih =>
      intro h hh hbytes
      simp only [List.foldl_cons]
      refine ih _ ?_ fun x hx => hbytes x (List.mem_cons_of_mem b hx)
      exact Nat.mod_lt _ (Nat.pos_pow_of_pos _ (by norm_num))

/-- Claim C9: for every variant and width configuration of width at least
8 (all three instantiated widths are), write is total on every byte
sequence, including the empty one, and all arithmetic stays modulo
2 ^ width: from an in-range accumulator and a byte sequence, the resulting
accumulator is again below 2 ^ width — overflow wraps silently, it cannot
trap, and the empty write is the identity. -/
theorem C9_write_total_wrapping (c : FnvConfig) (hW : 8 ≤ c.width)
    (h : Nat) (bytes : List Nat) (hh : h < 2 ^ c.width)
    (hbytes : ∀ b ∈ bytes, b < 256) :
    (Fnv0.write c (Fnv0.withKey h) bytes).hash < 2 ^ c.width
    ∧ (Fnv1.write c (Fnv1.withKey h) bytes).hash < 2 ^ c.width
    ∧ (Fnv1a.write c (Fnv1a.withKey h) bytes).hash < 2 ^ c.width
    ∧ Fnv0.write c (Fnv0.withKey h) [] = Fnv0.withKey h
    ∧ Fnv1.write c (Fnv1.withKey h) [] = Fnv1.withKey h
    ∧ Fnv1a.write c (Fnv1a.withKey h) [] = Fnv1a.withKey h :=
  ⟨foldl_mulXor_lt c hW bytes h hh hbytes,
   foldl_mulXor_lt c hW bytes h hh hbytes,
   foldl_xorMul_lt c bytes h hh hbytes,
   rfl, rfl, rfl⟩

/-- Witness for C9 at the 32-bit configuration, accumulator 0 and the
single byte 255. -/
theorem C9_witness :
    (Fnv0.write u32Config (Fnv0.withKey 0) [255]).hash < 2 ^ u32Config.width
    ∧ (Fnv1.write u32Config (Fnv1.withKey 0) [255]).hash < 2 ^ u32Config.width
    ∧ (Fnv1a.write u32Config (Fnv1a.withKey 0) [255]).hash < 2 ^ u32Config.width
    ∧ Fnv0.write u32Config (Fnv0.withKey 0) [] = Fnv0.withKey 0
    ∧ Fnv1.write u32Config (Fnv1.withKey 0) [] = Fnv1.withKey 0
    ∧ Fnv1a.write u32Config (Fnv1a.withKey 0) [] = Fnv1a.withKey 0 :=
  C9_write_total_wrapping u32Config (by decide) 0 [255] (by decide)
    (by intro b hb; simp at hb; omega)

/-- fnv_impl has a dedicated u64 arm, the only one that also invokes
fnv_hasher_impl: the list of widths whose Fnv0/Fnv1/Fnv1a instantiations
additionally implement std::hash::Hasher. -/
def stdHasherImplWidths : List Nat := [64]

/-- std::hash::Hasher::finish for Fnv0<u64>: delegates to
FnvHasher::finish. -/
def Fnv0.stdHasherFinish (s : Fnv0) : Nat := Fnv0.finish s

/-- std::hash::Hasher::write for Fnv0<u64>: delegates to FnvHasher::write
at the u64 instantiation. -/
def Fnv0.stdHasherWrite (s : Fnv0) (bytes : List Nat) : Fnv0 :=
  Fnv0.write u64Config s bytes

/-- std::hash::Hasher::finish for Fnv1<u64>: delegates to
FnvHasher::finish. -/
def Fnv1.stdHasherFinish (s : Fnv1) : Nat := Fnv1.finish s

/-- std::hash::Hasher::write for Fnv1<u64>: delegates to FnvHasher::write
at the u64 instantiation. -/
def Fnv1.stdHasherWrite (s : Fnv1) (bytes : List Nat) : Fnv1 :=
  Fnv1.write u64Config s bytes

/-- std::hash::Hasher::finish for Fnv1a<u64>: delegates to
FnvHasher::finish. -/
def Fnv1a.stdHasherFinish (s : Fnv1a) : Nat := Fnv1a.finish s

/-- std::hash::Hasher::write for Fnv1a<u64>: delegates to FnvHasher::write
at the u64 instantiation. -/
def Fnv1a.stdHasherWrite (s : Fnv1a) (bytes : List Nat) : Fnv1a :=
  Fnv1a.write u64Config s bytes

/-- Claim C10: the std::hash::Hasher impls exist exactly for the u64
instantiations of Fnv0, Fnv1 and Fnv1a, and their write and finish are
extensionally equal to the FnvHasher write and finish of the same
accumulator at the u64 configuration; widths 32 and 128 get no such
implementation. -/
theorem C10_std_hasher_u64_only :
    (∀ (s : Fnv0) (bytes : List Nat),
        Fnv0.stdHasherWrite s bytes = Fnv0.write u64Config s bytes
        ∧ Fnv0.stdHasherFinish s = Fnv0.finish s)
    ∧ (∀ (s : Fnv1) (bytes : List Nat),
        Fnv1.stdHasherWrite s bytes = Fnv1.write u64Config s bytes
        ∧ Fnv1.stdHasherFinish s = Fnv1.finish s)
    ∧ (∀ (s : Fnv1a) (bytes : List Nat),
        Fnv1a.stdHasherWrite s bytes = Fnv1a.write u64Config s bytes
        ∧ Fnv1a.stdHasherFinish s = Fnv1a.finish s)
    ∧ stdHasherImplWidths = [64]
    ∧ u64Config.width ∈ stdHasherImplWidths
    ∧ u32Config.width ∉ stdHasherImplWidths
    ∧ u128Config.width ∉ stdHasherImplWidths :=
  ⟨fun _ _ => ⟨rfl, rfl⟩, fun _ _ => ⟨rfl, rfl⟩, fun _ _ => ⟨rfl, rfl⟩,
   rfl, by decide, by decide, by decide⟩
